import Mathlib

/-!
Verification of the TypeTele teleoperation pipeline.

Shallow embedding of the repository's core components:
* the single-slot result mailboxes of `retrieve/retrieve.py` (`Retrieve.spin` /
  `Retrieve.get`) and `asr/typing_asr.py` (`KeyboardAsrServer._put_result` / `get`);
* the VAD segmentation state machine of `asr/tencent_asr.py` (`AsrServer.audio_callback`);
* the intent-resolution algorithm of `retrieve/retrieve.py` (`Retrieve._retrieve`,
  `_local_retrieve`, `_local_score`);
* the free-drag compliance controller of `leap_hand_utils/leap_node.py`
  (`enable_free_drag_mode`, `disable_free_drag_mode`, `_update_goal_pos_loop`);
* the fusion-loop pose synthesis and gesture-profile loading of `leap_3_realtime.py`;
* the flexion-ratio computation of `hand_detect/detectFinger.py`;
* the save-format encode/decode permutations of `leap_1_create_type.py` and
  `leap_2_test_type.py`.

Machine floats are modelled as exact rationals (reals where square roots occur);
threads are modelled by explicit sequential state passing.
-/

/-! ### Single-slot result mailboxes

`Retrieve` publishes via `self.result = value; self.have_new_result = True`
(retrieve.py lines 46-48) and reads via `get` (lines 169-179).
`KeyboardAsrServer` publishes via `_put_result` (typing_asr.py lines 102-111):
drain the maxsize-1 queue if non-empty, put the new value, set the flag;
it reads via `get` (lines 141-150).  Both run under a lock; a single
producer/consumer pair is modelled by sequential state passing. -/

/-- State of `Retrieve`'s result mailbox: the `result` attribute plus the
`have_new_result` flag (retrieve.py lines 21-23). -/

structure RetrieveMailbox (α : Type) where
  result : α
  haveNewResult : Bool

/-- Model of `Retrieve.spin`'s publish step (retrieve.py lines 46-48):
`self.result = type_name; self.have_new_result = True`. -/

def retrievePublish {α : Type} (m : RetrieveMailbox α) (v : α) : RetrieveMailbox α :=
  { result := v, haveNewResult := true }

/-- Model of `Retrieve.get` (retrieve.py lines 169-179): if the flag is set, clear it and
return the stored result, else return `None`. -/

def retrieveGet {α : Type} (m : RetrieveMailbox α) : Option α × RetrieveMailbox α :=
  if m.haveNewResult then (some m.result, { m with haveNewResult := false })
  else (none, m)

/-- The mailbox state left behind by one `Retrieve.get` call. -/

def retrieveAfterGet {α : Type} (m : RetrieveMailbox α) : RetrieveMailbox α :=
  (retrieveGet m).2

/-- State of `KeyboardAsrServer`'s result mailbox: the `Queue(maxsize=1)` content
plus the `have_new_result` flag (typing_asr.py lines 16-18). -/

structure KbMailbox (α : Type) where
  queue : Option α
  haveNewResult : Bool

/-- Model of `KeyboardAsrServer._put_result` (typing_asr.py lines 102-111): drain the
queue if non-empty, put the new value (the queue then holds exactly it), set
the flag. -/

def kbPutResult {α : Type} (m : KbMailbox α) (v : α) : KbMailbox α :=
  { queue := some v, haveNewResult := true }

/-- Model of `KeyboardAsrServer.get` (typing_asr.py lines 141-150): if the flag is set,
`get_nowait` the queue and clear the flag; an `Empty` exception (empty queue)
is caught and yields `None` before the flag assignment runs. -/

def kbGet {α : Type} (m : KbMailbox α) : Option α × KbMailbox α :=
  if m.haveNewResult then
    match m.queue with
    | some v => (some v, { queue := none, haveNewResult := false })
    | none => (none, m)
  else (none, m)

/-- The mailbox state left behind by one `KeyboardAsrServer.get` call. -/

def kbAfterGet {α : Type} (m : KbMailbox α) : KbMailbox α :=
  (kbGet m).2

/-! ### Theorems for the mailbox models -/

/-! ### VAD segmentation (`AsrServer.audio_callback`, asr/tencent_asr.py lines 210-259)

Frames carry the wall-clock time of the callback invocation, the RMS energy of
the block (`_calculate_volume`) and the number of samples in the block.  Times
and energies are modelled as exact rationals. -/

/-- One audio block as seen by `audio_callback`: invocation time, RMS energy,
sample count. -/

structure Frame where
  time : ℚ
  rms : ℚ
  samples : ℕ
deriving DecidableEq

/-- The VAD configuration (`cfg['vad']` plus the audio rate). -/

structure VadConfig where
  silenceThreshold : ℚ
  minAudioLength : ℚ
  maxSilenceDuration : ℚ
  rate : ℚ

/-- Mutable segmentation state of `AsrServer` (tencent_asr.py lines 38-46):
`voice_detected`, `voice_start_time`, `silence_start_time` (with `0` as the
"no silence running" sentinel), `current_recording`, and the queue of emitted
utterances (`audio_queue`). -/

structure AsrState where
  voiceDetected : Bool
  voiceStartTime : ℚ
  silenceStartTime : ℚ
  currentRecording : List Frame
  audioQueue : List (List Frame)
deriving DecidableEq

/-- The state before any frame arrives (`_record_audio` reset, lines 266-268). -/

def initAsrState : AsrState :=
  { voiceDetected := false, voiceStartTime := 0, silenceStartTime := 0,
    currentRecording := [], audioQueue := [] }

/-- Model of `AsrServer._is_silence` (lines 206-208): volume strictly below the threshold. -/

def _is_silence (cfg : VadConfig) (f : Frame) : Bool :=
  decide (f.rms < cfg.silenceThreshold)

/-- Duration in seconds of a buffered recording:
`len(np.concatenate(current_recording)) / RATE` (lines 244-245). -/

def recordingDuration (cfg : VadConfig) (rec : List Frame) : ℚ :=
  (((rec.map Frame.samples).sum : ℕ) : ℚ) / cfg.rate

/-- Model of `AsrServer.audio_callback` (lines 210-259) as a state transition per frame.
The voiced branch mirrors lines 217-226, the silent branch lines 228-259:
on the frame whose elapsed silence reaches `MAX_SILENCE_DURATION` the buffer is
emitted to `audio_queue` iff its total duration is at least `MIN_AUDIO_LENGTH`,
then buffer and flags are reset. -/

def audio_callback (cfg : VadConfig) (st : AsrState) (f : Frame) : AsrState :=
  if _is_silence cfg f = false then
    let st1 :=
      if st.voiceDetected = false then
        { st with voiceDetected := true, voiceStartTime := f.time, silenceStartTime := 0 }
      else st
    { st1 with currentRecording := st1.currentRecording ++ [f], silenceStartTime := 0 }
  else
    if st.voiceDetected = true then
      let sst := if st.silenceStartTime = 0 then f.time else st.silenceStartTime
      let silenceDuration := f.time - sst
      if silenceDuration < cfg.maxSilenceDuration then
        { st with silenceStartTime := sst, currentRecording := st.currentRecording ++ [f] }
      else
        let queue1 :=
          if st.currentRecording ≠ [] ∧
              cfg.minAudioLength ≤ recordingDuration cfg st.currentRecording
          then st.audioQueue ++ [st.currentRecording]
          else st.audioQueue
        { voiceDetected := false, voiceStartTime := st.voiceStartTime,
          silenceStartTime := 0, currentRecording := [], audioQueue := queue1 }
    else st

/-- Feeding a stream of frames to `audio_callback` one by one. -/

def runFrames (cfg : VadConfig) (st : AsrState) (fs : List Frame) : AsrState :=
  fs.foldl (audio_callback cfg) st

/-- A voiced burst followed by a silent tail, on a uniform time grid: frame `k`
arrives at `t0 + k*c`, carries `s` samples, and has energy `hi` for the first
`n` frames and `lo` for the next `m` frames. -/

def voicedThenSilent (t0 c hi lo : ℚ) (s : ℕ) (n m : ℕ) : List Frame :=
  ((List.range n).map fun (k : ℕ) => Frame.mk (t0 + (k : ℚ) * c) hi s) ++
  ((List.range m).map fun (k : ℕ) => Frame.mk ((t0 + (n : ℚ) * c) + (k : ℚ) * c) lo s)

/-! ### Intent resolution (`Retrieve`, retrieve.py lines 85-158)

`difflib.SequenceMatcher(...).ratio()` and the LLM chat-completions call are
external collaborators; they enter the model as the oracle parameters `ratio`
(the normalized string similarity) and `llm` (`some` the raw reply text, `none`
when the call raises).  Python string primitives `lower`/`strip`/`in` and the
regex `[a-zA-Z]+` are modelled executably over character lists (ASCII). -/

/-- One catalog entry as read from `_type_info.json`: `g.get('id')` may be
absent (`none`), the remaining fields default to empty. -/

structure Gesture where
  id : Option String
  name : String
  usage : String
  intents : List String
  pose : String

/-- Python `str.lower()` (ASCII). -/

def pyLower (s : String) : String := String.mk (s.toList.map Char.toLower)

/-- Python `str.strip()`: drop whitespace from both ends. -/

def pyStrip (s : String) : String :=
  String.mk (((s.toList.dropWhile Char.isWhitespace).reverse.dropWhile
    Char.isWhitespace).reverse)

/-- Whether `needle` starts `hay`. -/

def startsWithChars : List Char → List Char → Bool
  | [], _ => true
  | _ :: _, [] => false
  | a :: n, b :: h => a == b && startsWithChars n h

/-- Python's substring test `needle in hay` over character lists. -/

def substrChars (needle : List Char) : List Char → Bool
  | [] => startsWithChars needle []
  | b :: t => startsWithChars needle (b :: t) || substrChars needle t

/-- Python `needle in hay` for strings. -/

def strIn (needle hay : String) : Bool := substrChars needle.toList hay.toList

/-- Membership in `[a-zA-Z]`. -/

def isAlphaChar (c : Char) : Bool :=
  (decide ('a' ≤ c ∧ c ≤ 'z')) || (decide ('A' ≤ c ∧ c ≤ 'Z'))

/-- Accumulator pass for `re.findall(r"[a-zA-Z]+", ...)`: `curr` is the current
alphabetic run, reversed. -/

def alphaTokensAux : List Char → List Char → List (List Char)
  | curr, [] => if curr.isEmpty then [] else [curr.reverse]
  | curr, c :: rest =>
    if isAlphaChar c then alphaTokensAux (c :: curr) rest
    else if curr.isEmpty then alphaTokensAux [] rest
    else curr.reverse :: alphaTokensAux [] rest

/-- Model of `re.findall(r"[a-zA-Z]+", s)`: the maximal alphabetic runs of `s`. -/

def alphaTokens (l : List Char) : List (List Char) := alphaTokensAux [] l

/-- Python truthiness of `best` in `if local_id and ...`: `None` and the empty
string are falsy. -/

def pyTruthy : Option String → Bool
  | none => false
  | some s => decide (s ≠ "")

/-- Model of `Retrieve._local_score` (retrieve.py lines 85-107): similarity of the id
plus bounded bonuses for a verbatim display name, matching intent keywords and
long usage tokens occurring in the query. -/

def _local_score (ratio : String → String → ℚ) (query : String) (g : Gesture) : ℚ :=
  let q := pyStrip (pyLower query)
  let gid := g.id.getD ""
  let base := ratio q gid
  let bonus_name := if g.name ≠ "" ∧ strIn g.name q = true then (15 : ℚ) / 100 else 0
  let intent_hits := (g.intents.filter fun it => (it != "") && strIn (pyLower it) q).length
  let bonus_intent := min ((intent_hits : ℚ) * (1 / 10)) (3 / 10)
  let tokens := alphaTokens (pyLower g.usage).toList
  let token_hit := (tokens.filter fun t => (decide (3 < t.length)) && substrChars t q.toList).length
  let bonus_usage := min ((token_hit : ℚ) * (1 / 20)) (15 / 100)
  base + bonus_name + bonus_intent + bonus_usage

/-- One iteration of `_local_retrieve`'s loop (lines 112-116): keep the best
strictly-greater score, recording `g.get('id')`. -/

def _local_step (ratio : String → String → ℚ) (query : String)
    (acc : Option String × ℚ) (g : Gesture) : Option String × ℚ :=
  let s := _local_score ratio query g
  if acc.2 < s then (g.id, s) else acc

/-- Model of `Retrieve._local_retrieve` (lines 109-117): best entry id and its score,
starting from `(None, 0.0)`. -/

def _local_retrieve (ratio : String → String → ℚ) (types : List Gesture)
    (query : String) : Option String × ℚ :=
  types.foldl (_local_step ratio query) (none, 0)

/-- Model of `self.type_files` as populated by `load_type_library`'s JSON branch
(line 75): the ids present in the catalog. -/

def type_files (types : List Gesture) : List String := types.filterMap Gesture.id

/-- Python's `f"{t.get('id')}"` formatting: `None` renders as `"None"`. -/

def optIdStr : Option String → String
  | some s => s
  | none => "None"

/-- The catalog summary built by `_retrieve` (lines 127-131): one line per
entry with id, pose and up to three intents. -/

def catalogBrief (types : List Gesture) : String :=
  String.intercalate "\n" (types.map fun t =>
    optIdStr t.id ++ ": " ++ t.pose ++ "; intents=" ++
      String.intercalate "," (t.intents.take 3))

/-- The classifier prompt of `_retrieve` (lines 133-137). -/

def buildPrompt (types : List Gesture) (query : String) : String :=
  "You are a gesture type selector. Given a natural language user query (maybe noisy ASR). " ++
  "Choose the best gesture id from the catalog. If nothing fits, answer None. Just output the id or None.\n" ++
  "Catalog:\n" ++ catalogBrief types ++ "\nQuery: " ++ query ++ "\nAnswer:"

/-- Model of `Retrieve._retrieve` (lines 119-158).  The second component records
whether the external classifier was consulted.  An exception inside the
chat-completions call is the `llm ... = none` case and leaves
`candidate = None` (lines 149-151); `None in self.type_files` is false, so
control falls through to the local fallback. -/

def _retrieve (ratio : String → String → ℚ) (llm : String → Option String)
    (types : List Gesture) (query : String) : Option String × Bool :=
  if type_files types = [] then (none, false)
  else
    let lr := _local_retrieve ratio types query
    if pyTruthy lr.1 = true ∧ (3 / 4 : ℚ) ≤ lr.2 then (lr.1, false)
    else
      match (llm (buildPrompt types query)).map pyStrip with
      | some cand =>
        if cand ∈ type_files types then (some cand, true)
        else if pyTruthy lr.1 = true ∧ (11 / 20 : ℚ) ≤ lr.2 then (lr.1, true)
        else (none, true)
      | none =>
        if pyTruthy lr.1 = true ∧ (11 / 20 : ℚ) ≤ lr.2 then (lr.1, true)
        else (none, true)

/-! ### Free-drag compliance controller (`LeapNode`, leap_hand_utils/leap_node.py)

Joint vectors are 16-long arrays of radians, modelled as `Fin 16 → ℚ`. -/

/-- A 16-joint vector. -/

abbrev Vec16 := Fin 16 → ℚ

/-- Model of `thresholds = np.array([0.05]*16)` (leap_node.py line 102). -/

def dragThresholds : Vec16 := fun _ => 1 / 20

/-- The per-joint projected step `delta_pos` of `_update_goal_pos_loop`
(lines 112-117): the test is on the signed error
`pos_error[i] = current_pos[i] - curr_pos[i]` against `thresholds[i] + 0.05`. -/

def dragDelta (curr_pos measured vel : Vec16) (dt : ℚ) : Vec16 :=
  fun i =>
    if dragThresholds i + 1 / 20 < measured i - curr_pos i then vel i * dt * 5
    else vel i * dt

/-- One full cycle of `_update_goal_pos_loop` (lines 108-126): candidate
target `measured + delta`, applied per joint only where it differs from the
last commanded target by more than the threshold, else the previous target is
held; returns the newly commanded `updated_positions`. -/

def dragUpdate (curr_pos measured vel : Vec16) (dt : ℚ) : Vec16 :=
  let delta := dragDelta curr_pos measured vel dt
  let new_target := fun i => measured i + delta i
  fun i =>
    if dragThresholds i < |new_target i - curr_pos i| then new_target i
    else curr_pos i

/-! ### Free-drag lifecycle (`enable_free_drag_mode` / `disable_free_drag_mode`,
leap_node.py lines 73-99).  Hardware traffic is recorded as a write trace;
`read_cur`/`read_pos` results enter as parameters. -/

/-- A write issued to the Dynamixel bus: the torque (current) limit broadcast
(`sync_write(..., 102, 2)`) or a commanded-position write
(`write_desired_pos`). -/

inductive HwWrite
  | torqueLimit (v : ℚ)
  | desiredPos (p : Vec16)
deriving DecidableEq

/-- The `LeapNode` attributes touched by the free-drag lifecycle, plus a count
of running worker threads and the trace of hardware writes. -/

structure LeapState where
  curr_lim : ℚ
  original_curr_lim : ℚ
  free_drag_active : Bool
  workerThreads : ℕ
  filtered_current : Vec16
  writes : List HwWrite

/-- Model of `LeapNode.enable_free_drag_mode` (lines 73-85): no-op when already active;
otherwise snapshot the torque limit, lower it to 30, broadcast it, and start
one worker thread. -/

def enable_free_drag_mode (readCur : Vec16) (st : LeapState) : LeapState :=
  if st.free_drag_active then st
  else
    { curr_lim := 30
      original_curr_lim := st.curr_lim
      free_drag_active := true
      workerThreads := st.workerThreads + 1
      filtered_current := readCur
      writes := st.writes ++ [HwWrite.torqueLimit 30] }

/-- Model of `LeapNode.disable_free_drag_mode` (lines 87-99): no-op when inactive;
otherwise stop and join the worker, restore the snapshotted torque limit,
broadcast it, and issue one final commanded-position write equal to the
position read after the join. -/

def disable_free_drag_mode (readPos : Vec16) (st : LeapState) : LeapState :=
  if st.free_drag_active = false then st
  else
    { st with
      free_drag_active := false
      workerThreads := st.workerThreads - 1
      curr_lim := st.original_curr_lim
      writes := st.writes ++
        [HwWrite.torqueLimit st.original_curr_lim, HwWrite.desiredPos readPos] }

/-! ### Save-format encode/decode (leap_1_create_type.py lines 37-44,
leap_2_test_type.py lines 10-21, leap_3_realtime.py lines 14-15 and 77-81) -/

/-- The literal reorder index `[9, 8, 10, 11, 5, 4, 6, 7, 1, 0, 2, 3, 12, 13, 14, 15]`. -/

def _REORDER_INDEX : Fin 16 → Fin 16 :=
  ![9, 8, 10, 11, 5, 4, 6, 7, 1, 0, 2, 3, 12, 13, 14, 15]

/-- Model of `np.argsort(_REORDER_INDEX)`: for a permutation array, entry `k` is the
position at which value `k` occurs. -/

def _INVERSE_INDEX : Fin 16 → Fin 16 := fun k =>
  match (List.finRange 16).find? (fun i => _REORDER_INDEX i = k) with
  | some i => i
  | none => 0

/-- The numpy scatter `joints = np.zeros(16); joints[idx] = vec`: position `j`
receives `vec[i]` for the `i` with `idx[i] = j`, and stays 0 if there is none
(for injective `idx` the choice of `i` is unique). -/

def scatter_zero (idx : Fin 16 → Fin 16) (vec : Vec16) : Vec16 :=
  fun j =>
    match (List.finRange 16).find? (fun i => idx i = j) with
    | some i => vec i
    | none => 0

/-- Model of `_decode_saved` (leap_2_test_type.py lines 14-21, identically
leap_3_realtime.py lines 77-81): scatter the saved vector through
`_INVERSE_INDEX` and add 3.14159. -/

def _decode_saved (vec : Vec16) : Vec16 :=
  fun j => scatter_zero _INVERSE_INDEX vec j + 314159 / 100000

/-- Model of `LeapCreateType._get_current_leap_pos` (leap_1_create_type.py lines 37-44)
applied to the raw position read: subtract 3.14159, then gather through
`_INVERSE_INDEX` (`reordered = joints[inverse_index]`). -/

def _get_current_leap_pos (current_pos : Vec16) : Vec16 :=
  fun i => current_pos (_INVERSE_INDEX i) - 314159 / 100000

/-! ### Gesture-profile loading and switching (`RealTimeRunner`,
leap_3_realtime.py lines 62-94 and 96-118)

A profile file is modelled as the list of its lines with the float tokens of
each line already lexed to rationals; the file system is a finite map from
type name to file.  A missing file raises `FileNotFoundError`, a line that
does not hold exactly 16 floats raises `ValueError`; both surface as
`Except.error`. -/

/-- Model of `parse_line` (lines 69-75): a line must parse to exactly 16 floats. -/

def parse_line (type_name : String) (vals : List ℚ) : Except String Vec16 :=
  if h : vals.length = 16 then
    Except.ok (fun i => vals.get ⟨i.val, by rw [h]; exact i.isLt⟩)
  else Except.error ("Invalid line length for " ++ type_name)

/-- Model of `RealTimeRunner.load_type` (lines 67-94): look up the file, parse its
first two lines and decode them to hardware absolute positions.  A missing
line reads as empty and fails the 16-float check. -/

def load_type (files : String → Option (List (List ℚ))) (type_name : String) :
    Except String (Vec16 × Vec16) :=
  match files type_name with
  | none => Except.error ("Type file not found: " ++ type_name)
  | some lns => do
      let o ← parse_line type_name (lns.getD 0 [])
      let c ← parse_line type_name (lns.getD 1 [])
      Except.ok (_decode_saved o, _decode_saved c)

/-- The `RealTimeRunner` attributes touched by a type switch. -/

structure RunnerState where
  curr_type : String
  open_pos : Vec16
  close_pos : Vec16

/-- Model of `RealTimeRunner.change_type` (lines 62-65): `self.curr_type` is assigned
the new name BEFORE `load_type` runs; when `load_type` raises, the exception
propagates (second component `false`) with `curr_type` already overwritten and
the poses untouched (the tuple assignment never executes). -/

def change_type (files : String → Option (List (List ℚ))) (st : RunnerState)
    (new_type : String) : RunnerState × Bool :=
  let st1 := { st with curr_type := new_type }
  match load_type files new_type with
  | Except.ok oc => ({ st1 with open_pos := oc.1, close_pos := oc.2 }, true)
  | Except.error _ => (st1, false)

/-- The `main_loop` handler for a `/`-prefixed command (lines 105-110):
`change_type(new_query[1:])` inside `try`, the exception logged and swallowed;
the state after the iteration is the state `change_type` left behind. -/

def handleSwitchCommand (files : String → Option (List (List ℚ)))
    (st : RunnerState) (q : String) : RunnerState :=
  (change_type files st (String.mk (q.toList.drop 1))).1

/-! ### Fusion-loop pose synthesis (`RealTimeRunner.main_loop`,
leap_3_realtime.py lines 121-140) -/

/-- The per-finger flexion ratios consumed by the fusion loop. -/

structure FlexionRatios where
  thumb : ℚ
  index : ℚ
  middle : ℚ
  ring : ℚ
  pinky : ℚ

/-- Model of `thumb_mask = np.array([0]*12 + [1]*4)` (line 126). -/

def thumb_mask : Vec16 := fun i => if 12 ≤ i.val then 1 else 0

/-- Model of `index_mask = np.array([1]*4 + [0]*12)` (line 127). -/

def index_mask : Vec16 := fun i => if i.val ≤ 3 then 1 else 0

/-- Model of `middle_mask = np.array([0]*4 + [1]*4 + [0]*8)` (line 128). -/

def middle_mask : Vec16 := fun i => if 4 ≤ i.val ∧ i.val ≤ 7 then 1 else 0

/-- Model of `ring_mask = np.array([0]*8 + [1]*4 + [0]*4)` (line 129). -/

def ring_mask : Vec16 := fun i => if 8 ≤ i.val ∧ i.val ≤ 11 then 1 else 0

/-- Model of `type_pos` (lines 133-138): per-finger interpolation between the open and
close poses, masked onto each digit's joint group (pinky has no group). -/

def type_pos (open_pos close_pos : Vec16) (r : FlexionRatios) : Vec16 :=
  fun i =>
    (open_pos i * (1 - r.thumb) + close_pos i * r.thumb) * thumb_mask i +
    (open_pos i * (1 - r.index) + close_pos i * r.index) * index_mask i +
    (open_pos i * (1 - r.middle) + close_pos i * r.middle) * middle_mask i +
    (open_pos i * (1 - r.ring) + close_pos i * r.ring) * ring_mask i

/-- The digit group joint `i` belongs to, as fixed by the four masks: joints
0-3 index, 4-7 middle, 8-11 ring, 12-15 thumb. -/

def digitRatio (r : FlexionRatios) (i : Fin 16) : ℚ :=
  if i.val ≤ 3 then r.index
  else if i.val ≤ 7 then r.middle
  else if i.val ≤ 11 then r.ring
  else r.thumb

/-! ### Flexion ratios (`FingerDetector._detection_loop`,
hand_detect/detectFinger.py lines 43-67)

Joint positions returned by the pose estimator are 3-D points over the reals;
`np.linalg.norm` is the Euclidean norm. -/

/-- A 3-D point. -/

abbrev Vec3R := Fin 3 → ℝ

/-- Model of `np.linalg.norm` of a 3-vector. -/

noncomputable def norm3 (v : Vec3R) : ℝ := Real.sqrt (v 0 ^ 2 + v 1 ^ 2 + v 2 ^ 2)

/-- Model of `thumb_vec = joint_pos[4] - joint_pos[0]; thumb_vec[0] = thumb_vec[2] = 0`
(lines 43-45): only the y-component survives before taking the norm. -/

noncomputable def thumb_length (jp : Fin 21 → Vec3R) : ℝ :=
  norm3 (fun k => if k = 0 ∨ k = 2 then 0 else jp 4 k - jp 0 k)

/-- Full 3-D wrist-to-fingertip distance (lines 46-53), `tip` one of
8, 12, 16, 20. -/

noncomputable def finger_length (jp : Fin 21 → Vec3R) (tip : Fin 21) : ℝ :=
  norm3 (fun k => jp tip k - jp 0 k)

/-- Model of `np.clip(x, lo, hi)`. -/

noncomputable def clip (x lo hi : ℝ) : ℝ := min (max x lo) hi

/-- The five published flexion ratios over the reals. -/

structure FingerRatiosR where
  thumb : ℝ
  index : ℝ
  middle : ℝ
  ring : ℝ
  pinky : ℝ

/-- The `finger_ratios` dict published each detection cycle (lines 55-67):
each length normalized against its calibrated min/max constants, clamped to
[0,1] and inverted so that 1.0 means fully closed. -/

noncomputable def finger_ratios (jp : Fin 21 → Vec3R) : FingerRatiosR :=
  { thumb := 1 - clip ((thumb_length jp - 2 / 100) / (9 / 100 - 2 / 100)) 0 1
    index := 1 - clip ((finger_length jp 8 - 9 / 100) / (17 / 100 - 9 / 100)) 0 1
    middle := 1 - clip ((finger_length jp 12 - 9 / 100) / (18 / 100 - 9 / 100)) 0 1
    ring := 1 - clip ((finger_length jp 16 - 7 / 100) / (17 / 100 - 7 / 100)) 0 1
    pinky := 1 - clip ((finger_length jp 20 - 8 / 100) / (14 / 100 - 8 / 100)) 0 1 }

/-! ## Theorems -/

theorem retrieve_foldl_publish {α : Type} (m0 : RetrieveMailbox α) (vs : List α)
    (h : vs ≠ []) :
    vs.foldl retrievePublish m0 = { result := vs.getLast h, haveNewResult := true } := by
  induction vs generalizing m0 with
  | nil => exact absurd rfl h
  | cons v rest ih =>
    cases rest with
    | nil => simp [retrievePublish]
    | cons w ws =>
      rw [List.foldl_cons, ih (retrievePublish m0 v) (by simp)]
      simp [List.getLast]

theorem kb_foldl_publish {α : Type} (m0 : KbMailbox α) (vs : List α)
    (h : vs ≠ []) :
    vs.foldl kbPutResult m0 = { queue := some (vs.getLast h), haveNewResult := true } := by
  induction vs generalizing m0 with
  | nil => exact absurd rfl h
  | cons v rest ih =>
    cases rest with
    | nil => simp [kbPutResult]
    | cons w ws =>
      rw [List.foldl_cons, ih (kbPutResult m0 v) (by simp)]
      simp [List.getLast]

theorem retrieveAfterGet_flag_off {α : Type} (m : RetrieveMailbox α) :
    (retrieveAfterGet m).haveNewResult = false := by
  unfold retrieveAfterGet retrieveGet
  by_cases h : m.haveNewResult <;> simp [h]

theorem retrieveAfterGet_fixed {α : Type} (m : RetrieveMailbox α)
    (h : m.haveNewResult = false) : retrieveAfterGet m = m := by
  simp [retrieveAfterGet, retrieveGet, h]

theorem kbAfterGet_flag_off {α : Type} (m : KbMailbox α)
    (hq : m.haveNewResult = true → m.queue ≠ none) :
    (kbAfterGet m).haveNewResult = false := by
  unfold kbAfterGet kbGet
  by_cases h : m.haveNewResult
  · cases hmq : m.queue with
    | some v => simp [h, hmq]
    | none => exact absurd hmq (hq h)
  · simp [h]

theorem kbAfterGet_fixed {α : Type} (m : KbMailbox α)
    (h : m.haveNewResult = false) : kbAfterGet m = m := by
  simp [kbAfterGet, kbGet, h]

/-- C3: for every sequence of N consecutive publishes to a single-slot result
mailbox (`Retrieve`'s via `spin`, `KeyboardAsrServer`'s via `_put_result`) with
no intervening read, the next `get` returns exactly the N-th (most recent)
published value, and every subsequent `get` before the next publish returns
`None`; the slot holds at most one unread value throughout. -/
theorem mailbox_latest_value_wins {α : Type} (m0 : RetrieveMailbox α)
    (k0 : KbMailbox α) (vs : List α) (h : vs ≠ []) :
    ((retrieveGet (vs.foldl retrievePublish m0)).1 = some (vs.getLast h) ∧
      ∀ n : ℕ, (retrieveGet (retrieveAfterGet^[n + 1] (vs.foldl retrievePublish m0))).1 = none) ∧
    ((kbGet (vs.foldl kbPutResult k0)).1 = some (vs.getLast h) ∧
      ∀ n : ℕ, (kbGet (kbAfterGet^[n + 1] (vs.foldl kbPutResult k0))).1 = none) := by
  rw [retrieve_foldl_publish m0 vs h, kb_foldl_publish k0 vs h]
  refine ⟨⟨by simp [retrieveGet], ?_⟩, ⟨by simp [kbGet], ?_⟩⟩
  · intro n
    have hbase : retrieveAfterGet ({ result := vs.getLast h, haveNewResult := true } :
        RetrieveMailbox α) = { result := vs.getLast h, haveNewResult := false } := by
      simp [retrieveAfterGet, retrieveGet]
    have hfix : ∀ k : ℕ, retrieveAfterGet^[k]
        ({ result := vs.getLast h, haveNewResult := false } : RetrieveMailbox α) =
        { result := vs.getLast h, haveNewResult := false } := by
      intro k
      induction k with
      | zero => rfl
      | succ k ih => rw [Function.iterate_succ_apply, retrieveAfterGet_fixed _ rfl, ih]
    rw [Function.iterate_succ_apply, hbase, hfix n]
    simp [retrieveGet]
  · intro n
    have hbase : kbAfterGet ({ queue := some (vs.getLast h), haveNewResult := true } :
        KbMailbox α) = { queue := none, haveNewResult := false } := by
      simp [kbAfterGet, kbGet]
    have hfix : ∀ k : ℕ, kbAfterGet^[k]
        ({ queue := none, haveNewResult := false } : KbMailbox α) =
        { queue := none, haveNewResult := false } := by
      intro k
      induction k with
      | zero => rfl
      | succ k ih => rw [Function.iterate_succ_apply, kbAfterGet_fixed _ rfl, ih]
    rw [Function.iterate_succ_apply, hbase, hfix n]
    simp [kbGet]

/-- Witness for C3 at a concrete input: two publishes of `"a"` then `"b"`;
the next read of either mailbox yields `"b"` and the read after that yields
nothing. -/
theorem mailbox_latest_value_wins_witness :
    (retrieveGet (["a", "b"].foldl retrievePublish
        { result := "", haveNewResult := false })).1 = some "b" ∧
    (retrieveGet (retrieveAfterGet^[1] (["a", "b"].foldl retrievePublish
        { result := "", haveNewResult := false }))).1 = none ∧
    (kbGet (["a", "b"].foldl kbPutResult { queue := none, haveNewResult := false })).1 =
      some "b" := by
  have h := mailbox_latest_value_wins
    ({ result := "", haveNewResult := false } : RetrieveMailbox String)
    ({ queue := none, haveNewResult := false } : KbMailbox String)
    ["a", "b"] (by simp)
  refine ⟨?_, ?_, ?_⟩
  · simpa using h.1.1
  · simpa using h.1.2 0
  · simpa using h.2.1

theorem runFrames_append (cfg : VadConfig) (st : AsrState) (xs ys : List Frame) :
    runFrames cfg st (xs ++ ys) = runFrames cfg (runFrames cfg st xs) ys :=
  List.foldl_append _ _ _ _

theorem run_voiced_block (cfg : VadConfig) :
    ∀ (fs : List Frame) (vst : ℚ) (rec : List Frame) (aq : List (List Frame)),
      (∀ f ∈ fs, _is_silence cfg f = false) →
      runFrames cfg (AsrState.mk true vst 0 rec aq) fs =
        AsrState.mk true vst 0 (rec ++ fs) aq := by
  intro fs
  induction fs with
  | nil => intro vst rec aq _; simp [runFrames]
  | cons f rest ih =>
    intro vst rec aq hall
    have hf : _is_silence cfg f = false := hall f (by simp)
    have hstep : audio_callback cfg (AsrState.mk true vst 0 rec aq) f =
        AsrState.mk true vst 0 (rec ++ [f]) aq := by
      simp [audio_callback, hf]
    have ih2 := ih vst (rec ++ [f]) aq (fun g hg => hall g (by simp [hg]))
    simp only [runFrames, List.foldl_cons] at ih2 ⊢
    rw [hstep, ih2]
    simp

theorem run_voiced_from_init (cfg : VadConfig) (f : Frame) (fs : List Frame)
    (hall : ∀ g ∈ f :: fs, _is_silence cfg g = false) :
    runFrames cfg initAsrState (f :: fs) =
      AsrState.mk true f.time 0 (f :: fs) [] := by
  have hf : _is_silence cfg f = false := hall f (by simp)
  have hstep : audio_callback cfg initAsrState f =
      AsrState.mk true f.time 0 [f] [] := by
    simp [audio_callback, hf, initAsrState]
  have hrest := run_voiced_block cfg fs f.time [f] []
    (fun g hg => hall g (by simp [hg]))
  simp only [runFrames, List.foldl_cons] at hrest ⊢
  rw [hstep, hrest]
  simp

theorem run_voiced_init_ne (cfg : VadConfig) (fs : List Frame) (hne : fs ≠ [])
    (hall : ∀ g ∈ fs, _is_silence cfg g = false) :
    ∃ tstart, runFrames cfg initAsrState fs = AsrState.mk true tstart 0 fs [] := by
  cases fs with
  | nil => exact absurd rfl hne
  | cons f rest => exact ⟨f.time, run_voiced_from_init cfg f rest hall⟩

theorem run_silent_append (cfg : VadConfig) (vst T0 c lo : ℚ) (s : ℕ)
    (B : List Frame) (hlo : lo < cfg.silenceThreshold) (hT0 : T0 ≠ 0) :
    ∀ (i j : ℕ), i ≤ j →
      (∀ k : ℕ, k < j → (k : ℚ) * c < cfg.maxSilenceDuration) →
      runFrames cfg (AsrState.mk true vst 0 B [])
          ((List.range i).map fun (k : ℕ) => Frame.mk (T0 + (k : ℚ) * c) lo s) =
        AsrState.mk true vst (if i = 0 then 0 else T0)
          (B ++ ((List.range i).map fun (k : ℕ) => Frame.mk (T0 + (k : ℚ) * c) lo s)) [] := by
  intro i
  induction i with
  | zero => intro j _ _; simp [runFrames]
  | succ i ih =>
    intro j hij hj
    have hstep : audio_callback cfg
        (AsrState.mk true vst (if i = 0 then 0 else T0)
          (B ++ ((List.range i).map fun (k : ℕ) => Frame.mk (T0 + (k : ℚ) * c) lo s)) [])
        (Frame.mk (T0 + (i : ℚ) * c) lo s) =
        AsrState.mk true vst T0
          ((B ++ ((List.range i).map fun (k : ℕ) => Frame.mk (T0 + (k : ℚ) * c) lo s)) ++
            [Frame.mk (T0 + (i : ℚ) * c) lo s]) [] := by
      by_cases hi0 : i = 0
      · subst hi0
        have hlt : (0 : ℚ) < cfg.maxSilenceDuration := by
          have := hj 0 (by omega)
          simpa using this
        simp [audio_callback, _is_silence, hlo, hlt]
      · have hsub : (T0 + (i : ℚ) * c) - T0 = (i : ℚ) * c := by ring
        have hlt : (i : ℚ) * c < cfg.maxSilenceDuration := hj i (by omega)
        simp [audio_callback, _is_silence, hlo, hi0, hT0, hsub, hlt]
    rw [List.range_succ, List.map_append, runFrames_append, ih j (by omega) hj]
    simp only [List.map_singleton, runFrames, List.foldl_cons, List.foldl_nil]
    rw [hstep]
    simp [List.append_assoc]

theorem run_silent_trigger (cfg : VadConfig) (vst T0 c lo : ℚ) (s : ℕ)
    (R : List Frame) (j : ℕ)
    (hlo : lo < cfg.silenceThreshold) (hT0 : T0 ≠ 0)
    (hjmax : cfg.maxSilenceDuration ≤ (j : ℚ) * c) :
    audio_callback cfg (AsrState.mk true vst (if j = 0 then 0 else T0) R [])
        (Frame.mk (T0 + (j : ℚ) * c) lo s) =
      AsrState.mk false vst 0 []
        (if R ≠ [] ∧ cfg.minAudioLength ≤ recordingDuration cfg R then [R] else []) := by
  by_cases hj0 : j = 0
  · subst hj0
    have hnlt : ¬ (0 : ℚ) < cfg.maxSilenceDuration := by
      simp only [Nat.cast_zero, zero_mul] at hjmax
      exact not_lt.mpr hjmax
    simp [audio_callback, _is_silence, hlo, hnlt]
  · have hsub : (T0 + (j : ℚ) * c) - T0 = (j : ℚ) * c := by ring
    have hnlt : ¬ (j : ℚ) * c < cfg.maxSilenceDuration := not_lt.mpr hjmax
    simp [audio_callback, _is_silence, hlo, hj0, hT0, hsub, hnlt]

theorem samples_sum_map (g : ℕ → ℚ) (e : ℚ) (s : ℕ) (l : List ℕ) :
    (((l.map fun k => Frame.mk (g k) e s).map Frame.samples).sum) = l.length * s := by
  induction l with
  | nil => simp
  | cons a t ih =>
    simp only [List.map_cons, List.sum_cons, ih, List.length_cons]
    ring

/-- C1 (amended): a voiced burst of `n` frames followed by silence reaching the
max-silence duration is emitted as exactly one utterance when the total
buffered duration — the voiced burst plus the `j` silent frames appended while
the silence clock is below `MAX_SILENCE_DURATION` — is at least
`MIN_AUDIO_LENGTH`, and is discarded (zero emissions) otherwise.  Since the
buffer includes the trailing silence, a voiced duration `D` at or above the
minimum always yields exactly one utterance, but a `D` below the minimum can
still be emitted. -/
theorem vad_emission_count (cfg : VadConfig) (t0 c hi lo : ℚ) (s : ℕ) (n j : ℕ)
    (hhi : ¬ hi < cfg.silenceThreshold) (hlo : lo < cfg.silenceThreshold)
    (ht0 : 0 < t0) (hc : 0 ≤ c) (hn : 0 < n)
    (hj : ∀ k : ℕ, k < j → (k : ℚ) * c < cfg.maxSilenceDuration)
    (hjmax : cfg.maxSilenceDuration ≤ (j : ℚ) * c) :
    (runFrames cfg initAsrState (voicedThenSilent t0 c hi lo s n (j + 1))).audioQueue.length =
      if cfg.minAudioLength ≤ (((n + j) * s : ℕ) : ℚ) / cfg.rate then 1 else 0 := by
  have hT0 : t0 + (n : ℚ) * c ≠ 0 := by
    have h1 : (0 : ℚ) ≤ (n : ℚ) * c := mul_nonneg (by positivity) hc
    have h2 : 0 < t0 + (n : ℚ) * c := by linarith
    exact ne_of_gt h2
  have hVne : ((List.range n).map fun (k : ℕ) => Frame.mk (t0 + (k : ℚ) * c) hi s) ≠ [] := by
    simp
    omega
  have hVall : ∀ g ∈ ((List.range n).map fun (k : ℕ) => Frame.mk (t0 + (k : ℚ) * c) hi s),
      _is_silence cfg g = false := by
    intro g hg
    simp only [List.mem_map] at hg
    obtain ⟨k, _, rfl⟩ := hg
    simp [_is_silence, hhi]
  have hdecomp : voicedThenSilent t0 c hi lo s n (j + 1) =
      ((List.range n).map fun (k : ℕ) => Frame.mk (t0 + (k : ℚ) * c) hi s) ++
      ((List.range (j + 1)).map fun (k : ℕ) =>
        Frame.mk ((t0 + (n : ℚ) * c) + (k : ℚ) * c) lo s) := rfl
  rw [hdecomp, runFrames_append]
  obtain ⟨tstart, hrun⟩ := run_voiced_init_ne cfg _ hVne hVall
  rw [hrun, List.range_succ, List.map_append, runFrames_append]
  rw [run_silent_append cfg tstart (t0 + (n : ℚ) * c) c lo s _ hlo hT0 j j le_rfl hj]
  simp only [List.map_singleton, runFrames, List.foldl_cons, List.foldl_nil]
  rw [run_silent_trigger cfg tstart (t0 + (n : ℚ) * c) c lo s _ j hlo hT0 hjmax]
  have hRne : (((List.range n).map fun (k : ℕ) => Frame.mk (t0 + (k : ℚ) * c) hi s) ++
      ((List.range j).map fun (k : ℕ) =>
        Frame.mk ((t0 + (n : ℚ) * c) + (k : ℚ) * c) lo s)) ≠ [] := by
    simp only [ne_eq, List.append_eq_nil, not_and]
    intro hv
    exact absurd hv hVne
  have hdur : recordingDuration cfg
      (((List.range n).map fun (k : ℕ) => Frame.mk (t0 + (k : ℚ) * c) hi s) ++
        ((List.range j).map fun (k : ℕ) =>
          Frame.mk ((t0 + (n : ℚ) * c) + (k : ℚ) * c) lo s)) =
      (((n + j) * s : ℕ) : ℚ) / cfg.rate := by
    unfold recordingDuration
    congr 2
    rw [List.map_append, List.sum_append, samples_sum_map, samples_sum_map]
    simp only [List.length_range]
    ring
  by_cases hmin : cfg.minAudioLength ≤ (((n + j) * s : ℕ) : ℚ) / cfg.rate
  · rw [if_pos hmin]
    push_cast at hmin
    simp [hdur, hRne, hmin]
  · rw [if_neg hmin]
    push_cast at hmin
    rw [not_le] at hmin
    simp [hdur, hRne, hmin]

/-- C1 counterexample: with silence threshold 500, minimum audio length 2 s,
max-silence duration 1 s and rate 1 sample/s, a single 1-second voiced frame —
voiced duration D = 1 s, strictly below the 2 s minimum — followed by silence
is nevertheless emitted (one utterance in `audio_queue`): the minimum-length
test of `audio_callback` is applied to the whole buffered span including the
appended trailing silence (here 2 s ≥ 2 s), so the buffered span is not
discarded as the claim states. -/
theorem vad_short_voiced_still_emitted :
    ((1 * 1 : ℕ) : ℚ) / (1 : ℚ) < 2 ∧
    (runFrames (VadConfig.mk 500 2 1 1) initAsrState
        (voicedThenSilent 1 1 600 0 1 1 2)).audioQueue.length = 1 := by
  constructor
  · norm_num
  · norm_num [voicedThenSilent, runFrames, audio_callback, _is_silence, initAsrState,
      recordingDuration, List.range_succ]
    simp

/-- Witness for C1's amended theorem at a concrete input: minimum audio length
10 s, one voiced frame and a buffered silent frame (total 2 s < 10 s), so the
span is discarded and nothing is emitted. -/
theorem vad_emission_count_witness :
    (runFrames (VadConfig.mk 500 10 1 1) initAsrState
        (voicedThenSilent 1 1 600 0 1 1 2)).audioQueue.length = 0 := by
  have h := vad_emission_count (VadConfig.mk 500 10 1 1) 1 1 600 0 1 1 1
    (by norm_num) (by norm_num) (by norm_num) (by norm_num) (by norm_num)
    (by
      intro k hk
      have hk0 : k = 0 := by omega
      subst hk0
      norm_num)
    (by norm_num)
  rw [h]
  norm_num

theorem local_retrieve_truthy_of_pos (ratio : String → String → ℚ)
    (query : String) :
    ∀ (ts : List Gesture) (acc : Option String × ℚ),
      (∀ g ∈ ts, ∃ i, g.id = some i ∧ i ≠ "") →
      (0 < acc.2 → pyTruthy acc.1 = true) →
      (0 < (ts.foldl (_local_step ratio query) acc).2 →
        pyTruthy (ts.foldl (_local_step ratio query) acc).1 = true) := by
  intro ts
  induction ts with
  | nil => intro acc _ hacc; simpa using hacc
  | cons g rest ih =>
    intro acc hwf hacc
    rw [List.foldl_cons]
    refine ih (_local_step ratio query acc g) (fun g2 hg2 => hwf g2 (by simp [hg2])) ?_
    intro hpos
    unfold _local_step at hpos ⊢
    by_cases hup : acc.2 < _local_score ratio query g
    · obtain ⟨i, hid, hine⟩ := hwf g (by simp)
      simp [hup, hid, pyTruthy, hine]
    · simp only [hup, if_false] at hpos ⊢
      exact hacc hpos
  

/-- C4: for every query whose best local fuzzy score against the loaded
catalog is at least 0.75 (and whose best-scoring entry carries a non-empty
catalog id), `_retrieve` returns that best-scoring id and the external
classifier is never invoked. -/
theorem retrieve_high_confidence (ratio : String → String → ℚ)
    (llm : String → Option String) (types : List Gesture) (query : String)
    (i : String) (s : ℚ)
    (hne : type_files types ≠ [])
    (hbest : _local_retrieve ratio types query = (some i, s))
    (hi : i ≠ "") (hs : (3 / 4 : ℚ) ≤ s) :
    _retrieve ratio llm types query = (some i, false) := by
  simp [_retrieve, hne, hbest, pyTruthy, hi, hs]

/-- Witness for C4 at a concrete input: a one-entry catalog with id `box`, a
similarity oracle scoring 1 and a query `box`; the result is `box` and the
classifier flag stays `false`. -/
theorem retrieve_high_confidence_witness :
    _retrieve (fun _ _ => (1 : ℚ)) (fun _ => none)
      [{ id := some "box", name := "", usage := "", intents := [], pose := "" }]
      "box" = (some "box", false) := by
  apply retrieve_high_confidence (fun _ _ => (1 : ℚ)) (fun _ => none)
    [{ id := some "box", name := "", usage := "", intents := [], pose := "" }]
    "box" "box" 1
  · simp [type_files]
  · have htok : alphaTokens (pyLower "").data = [] := rfl
    simp [_local_retrieve, _local_step, _local_score, htok, min_def]
    norm_num
  · decide
  · norm_num

/-- C5: for every query with best local score below 0.75 against a loaded
catalog of non-empty ids, `_retrieve` consults the external classifier (flag
`true`) and is total even when the call fails (`llm ... = none`); it returns
the classifier's stripped answer when that answer is literally one of the
known ids, else the local best id when its score is at least 0.55, else
`None` — so for a query scoring below 0.55 a classifier answer of `"none"`,
an unknown id or a failure all resolve to `None`. -/
theorem retrieve_below_threshold (ratio : String → String → ℚ)
    (llm : String → Option String) (types : List Gesture) (query : String)
    (hne : type_files types ≠ [])
    (hwf : ∀ g ∈ types, ∃ i, g.id = some i ∧ i ≠ "")
    (hlow : (_local_retrieve ratio types query).2 < 3 / 4) :
    _retrieve ratio llm types query =
      ((match (llm (buildPrompt types query)).map pyStrip with
        | some cand =>
          if cand ∈ type_files types then some cand
          else if (11 / 20 : ℚ) ≤ (_local_retrieve ratio types query).2 then
            (_local_retrieve ratio types query).1
          else none
        | none =>
          if (11 / 20 : ℚ) ≤ (_local_retrieve ratio types query).2 then
            (_local_retrieve ratio types query).1
          else none), true) := by
  have hfall : (if pyTruthy (_local_retrieve ratio types query).1 = true ∧
      (11 / 20 : ℚ) ≤ (_local_retrieve ratio types query).2 then
        ((_local_retrieve ratio types query).1, true)
      else ((none : Option String), true)) =
      ((if (11 / 20 : ℚ) ≤ (_local_retrieve ratio types query).2 then
        (_local_retrieve ratio types query).1 else none), true) := by
    by_cases hsc : (11 / 20 : ℚ) ≤ (_local_retrieve ratio types query).2
    · have hpos : 0 < (_local_retrieve ratio types query).2 := by linarith
      have htr := local_retrieve_truthy_of_pos ratio query types (none, 0) hwf
        (by intro h0; norm_num at h0) hpos
      rw [if_pos ⟨htr, hsc⟩, if_pos hsc]
    · rw [if_neg (fun hco => hsc hco.2), if_neg hsc]
  have hnothigh : ¬ (pyTruthy (_local_retrieve ratio types query).1 = true ∧
      (3 / 4 : ℚ) ≤ (_local_retrieve ratio types query).2) :=
    fun hco => absurd hco.2 (not_le.mpr hlow)
  unfold _retrieve
  rw [if_neg hne]
  simp only [hnothigh, if_false]
  cases hllm : (llm (buildPrompt types query)).map pyStrip with
  | none => simpa using hfall
  | some cand =>
    by_cases hmem : cand ∈ type_files types
    · simp [hmem]
    · simpa [hmem] using hfall

/-- Witness for C5 at a concrete input: one catalog entry `box`, similarity
oracle scoring 0, classifier answering `"none"` (not a known id); the result
is `None` and the classifier-consulted flag is `true`. -/
theorem retrieve_below_threshold_witness :
    _retrieve (fun _ _ => (0 : ℚ)) (fun _ => some "none")
      [{ id := some "box", name := "", usage := "", intents := [], pose := "" }]
      "open it" = (none, true) := by
  have h := retrieve_below_threshold (fun _ _ => (0 : ℚ)) (fun _ => some "none")
    [{ id := some "box", name := "", usage := "", intents := [], pose := "" }]
    "open it"
    (by simp [type_files])
    (by
      intro g hg
      simp at hg
      subst hg
      exact ⟨"box", rfl, by decide⟩)
    (by
      have htok : alphaTokens (pyLower "").data = [] := rfl
      simp [_local_retrieve, _local_step, _local_score, htok, min_def]
      norm_num)
  rw [h]
  have hcand : ((fun (_ : String) => some "none") (buildPrompt
      [{ id := some "box", name := "", usage := "", intents := [], pose := "" }]
      "open it")).map pyStrip = some "none" := by
    simp
    decide
  rw [hcand]
  have hmem : ("none" ∈ type_files
      [{ id := some "box", name := "", usage := "", intents := [], pose := "" }]) = False := by
    simp [type_files]
  have hsc : ¬ ((11 / 20 : ℚ) ≤ (_local_retrieve (fun _ _ => (0 : ℚ))
      [{ id := some "box", name := "", usage := "", intents := [], pose := "" }]
      "open it").2) := by
    have htok : alphaTokens (pyLower "").data = [] := rfl
    simp [_local_retrieve, _local_step, _local_score, htok, min_def]
    norm_num
  simp [hmem, hsc]

/-- C6 counterexample: joint 0 with measured position 0, last commanded target
0.2, velocity 1 and Δt = 1 has absolute error |0 − 0.2| = 0.2 exceeding the
tight threshold plus margin (0.05 + 0.05), yet the projected step computed by
the loop is the slow one `velocity * Δt`, not `velocity * Δt * 5` as the claim
requires: the code compares the signed error, not its absolute value. -/
theorem drag_gain_ignores_negative_error :
    dragThresholds 0 + 1 / 20 < |(0 : ℚ) - 1 / 5| ∧
    dragDelta (fun _ => 1 / 5) (fun _ => 0) (fun _ => 1) 1 0 = 1 * 1 ∧
    (1 : ℚ) * 1 ≠ 1 * 1 * 5 := by
  have habs : |(0 : ℚ) - 1 / 5| = 1 / 5 := by
    rw [abs_sub_comm, sub_zero, abs_of_nonneg (by norm_num : (0 : ℚ) ≤ 1 / 5)]
  refine ⟨by rw [habs]; norm_num [dragThresholds], ?_, by norm_num⟩
  norm_num [dragDelta, dragThresholds]

/-- C6 (amended): in every cycle of the free-drag loop and for every joint
`i`, the projected step equals `velocity[i] * Δt * 5` when the signed position
error `measured[i] − last commanded target[i]` exceeds the tight threshold
plus the margin (0.05 + 0.05 = 0.1), and `velocity[i] * Δt` otherwise; the
cycle commands `measured + step` only where it differs from the last target by
more than the 0.05 threshold, else it holds the previous target. -/
theorem drag_update_characterization (curr_pos measured vel : Vec16) (dt : ℚ)
    (i : Fin 16) :
    dragUpdate curr_pos measured vel dt i =
      (if (1 / 20 : ℚ) <
          |measured i +
            (if (1 / 10 : ℚ) < measured i - curr_pos i then vel i * dt * 5
              else vel i * dt) - curr_pos i| then
        measured i +
          (if (1 / 10 : ℚ) < measured i - curr_pos i then vel i * dt * 5
            else vel i * dt)
      else curr_pos i) := by
  have hth : dragThresholds i + 1 / 20 = (1 / 10 : ℚ) := by
    norm_num [dragThresholds]
  have hth2 : dragThresholds i = (1 / 20 : ℚ) := rfl
  unfold dragUpdate dragDelta
  beta_reduce
  rw [hth, hth2]

/-- C7: from an inactive state, `enable_free_drag_mode` sets the torque limit
to the reduced safety value 30 and broadcasts it, runs exactly one worker
thread (a second `enable` during the interval is a no-op), and
`disable_free_drag_mode` restores the torque limit to its exact pre-enable
value, stops the worker, and appends exactly the restore write followed by one
final commanded-position write equal to the position measured after the loop
stops. -/
theorem free_drag_lifecycle (st0 : LeapState) (c c2 p : Vec16)
    (h : st0.free_drag_active = false) (hw : st0.workerThreads = 0) :
    (enable_free_drag_mode c st0).curr_lim = 30 ∧
    (enable_free_drag_mode c st0).writes = st0.writes ++ [HwWrite.torqueLimit 30] ∧
    (enable_free_drag_mode c st0).workerThreads = 1 ∧
    enable_free_drag_mode c2 (enable_free_drag_mode c st0) = enable_free_drag_mode c st0 ∧
    (disable_free_drag_mode p (enable_free_drag_mode c st0)).curr_lim = st0.curr_lim ∧
    (disable_free_drag_mode p (enable_free_drag_mode c st0)).workerThreads = 0 ∧
    (disable_free_drag_mode p (enable_free_drag_mode c st0)).writes =
      (enable_free_drag_mode c st0).writes ++
        [HwWrite.torqueLimit st0.curr_lim, HwWrite.desiredPos p] := by
  have hen : enable_free_drag_mode c st0 =
      { curr_lim := 30, original_curr_lim := st0.curr_lim, free_drag_active := true,
        workerThreads := st0.workerThreads + 1, filtered_current := c,
        writes := st0.writes ++ [HwWrite.torqueLimit 30] } := by
    simp [enable_free_drag_mode, h]
  rw [hen]
  refine ⟨rfl, rfl, by rw [hw], by simp [enable_free_drag_mode], ?_, ?_, ?_⟩ <;>
    simp [disable_free_drag_mode, hw]

/-- Witness for C7 at a concrete input: initial torque limit 150, inactive,
no workers; after enable the limit is 30 with one worker and a limit-30 write,
a re-enable changes nothing, and after disable the limit is 150 again with the
restore and final position writes appended. -/
theorem free_drag_lifecycle_witness :
    (enable_free_drag_mode (fun _ => 0)
      (LeapState.mk 150 150 false 0 (fun _ => 0) [])).curr_lim = 30 ∧
    (enable_free_drag_mode (fun _ => 0)
      (LeapState.mk 150 150 false 0 (fun _ => 0) [])).writes = [HwWrite.torqueLimit 30] ∧
    (enable_free_drag_mode (fun _ => 0)
      (LeapState.mk 150 150 false 0 (fun _ => 0) [])).workerThreads = 1 ∧
    (disable_free_drag_mode (fun _ => 1) (enable_free_drag_mode (fun _ => 0)
      (LeapState.mk 150 150 false 0 (fun _ => 0) []))).curr_lim = 150 ∧
    (disable_free_drag_mode (fun _ => 1) (enable_free_drag_mode (fun _ => 0)
      (LeapState.mk 150 150 false 0 (fun _ => 0) []))).writes =
      (enable_free_drag_mode (fun _ => 0)
        (LeapState.mk 150 150 false 0 (fun _ => 0) [])).writes ++
        [HwWrite.torqueLimit 150, HwWrite.desiredPos (fun _ => 1)] := by
  have h := free_drag_lifecycle (LeapState.mk 150 150 false 0 (fun _ => 0) [])
    (fun _ => 0) (fun _ => 0) (fun _ => 1) rfl rfl
  exact ⟨h.1, by simpa using h.2.1, h.2.2.1, h.2.2.2.2.1, h.2.2.2.2.2.2⟩

theorem find_inverse_eq (j : Fin 16) :
    (List.finRange 16).find? (fun i => _INVERSE_INDEX i = j) =
      some (_REORDER_INDEX j) := by
  revert j
  decide

theorem inverse_reorder_eq (j : Fin 16) :
    _INVERSE_INDEX (_REORDER_INDEX j) = j := by
  revert j
  decide

/-- C10: for every 16-element vector `p` of hardware joint positions, decoding
the recorder's saved encoding is the identity: `_decode_saved` applied to
`_get_current_leap_pos p` (subtract 3.14159, permute by the argsort of the
reorder index) returns `p` exactly, so the save-format encode of
`leap_1_create_type` and the decode shared by `leap_2_test_type` and
`leap_3_realtime` are mutually inverse. -/
theorem decode_encode_identity (p : Vec16) :
    _decode_saved (_get_current_leap_pos p) = p := by
  funext j
  unfold _decode_saved scatter_zero
  rw [find_inverse_eq j]
  simp only [_get_current_leap_pos]
  rw [inverse_reorder_eq j]
  ring

/-- C2 (code bug): a switch request naming a gesture whose profile file is
missing is rejected by `load_type`, yet the state is NOT unchanged: with
current type `box`, requesting `/ghost` leaves the open/close pose vectors at
their previous values but `curr_type` ends as `ghost`, not `box`, because
`change_type` overwrites `curr_type` before `load_type` can raise. -/
theorem change_type_failure_mutates_name :
    (handleSwitchCommand
        (fun n => if n = "box" then
          some [List.replicate 16 (0 : ℚ), List.replicate 16 0] else none)
        (RunnerState.mk "box" (fun _ => 0) (fun _ => 1)) "/ghost").curr_type = "ghost" ∧
    (handleSwitchCommand
        (fun n => if n = "box" then
          some [List.replicate 16 (0 : ℚ), List.replicate 16 0] else none)
        (RunnerState.mk "box" (fun _ => 0) (fun _ => 1)) "/ghost").open_pos =
      (fun _ => 0) ∧
    (handleSwitchCommand
        (fun n => if n = "box" then
          some [List.replicate 16 (0 : ℚ), List.replicate 16 0] else none)
        (RunnerState.mk "box" (fun _ => 0) (fun _ => 1)) "/ghost").close_pos =
      (fun _ => 1) ∧
    ("ghost" : String) ≠ "box" := by
  have hq : String.mk (("/ghost" : String).toList.drop 1) = "ghost" := by decide
  have hnone : (if ("ghost" : String) = "box" then
      some [List.replicate 16 (0 : ℚ), List.replicate 16 0] else none) = none :=
    if_neg (by decide)
  refine ⟨?_, ?_, ?_, by decide⟩ <;>
    simp [handleSwitchCommand, change_type, load_type, hq, hnone]

/-- C8: the synthesized target pose equals, on each joint, the linear
interpolation `open*(1−r) + close*r` where `r` is the ratio of the digit group
the joint belongs to (the four masks partition all 16 joints); in particular
with open all-zero, close all-one and ratios thumb 1.0 / others 0.0, the pose
is exactly 1 on the thumb group (joints 12-15) and 0 elsewhere. -/
theorem type_pos_is_groupwise_lerp (open_pos close_pos : Vec16)
    (r : FlexionRatios) (i : Fin 16) :
    type_pos open_pos close_pos r i =
      open_pos i * (1 - digitRatio r i) + close_pos i * digitRatio r i ∧
    type_pos (fun _ => 0) (fun _ => 1) (FlexionRatios.mk 1 0 0 0 0) i =
      (if 12 ≤ i.val then 1 else 0) := by
  constructor
  · fin_cases i <;>
      norm_num [type_pos, digitRatio, thumb_mask, index_mask, middle_mask, ring_mask]
  · fin_cases i <;>
      norm_num [type_pos, thumb_mask, index_mask, middle_mask, ring_mask]

theorem one_sub_clip01_mem (x : ℝ) :
    0 ≤ 1 - clip x 0 1 ∧ 1 - clip x 0 1 ≤ 1 := by
  have h0 : 0 ≤ clip x 0 1 := le_min (le_max_right x 0) zero_le_one
  have h1 : clip x 0 1 ≤ 1 := min_le_right _ _
  exact ⟨by linarith, by linarith⟩

/-- C9: for every detected hand pose, each of the five published flexion
ratios — computed as 1 minus the clamped normalized wrist-to-fingertip
length — lies in the closed interval [0,1]. -/
theorem finger_ratios_in_unit_interval (jp : Fin 21 → Vec3R) :
    (0 ≤ (finger_ratios jp).thumb ∧ (finger_ratios jp).thumb ≤ 1) ∧
    (0 ≤ (finger_ratios jp).index ∧ (finger_ratios jp).index ≤ 1) ∧
    (0 ≤ (finger_ratios jp).middle ∧ (finger_ratios jp).middle ≤ 1) ∧
    (0 ≤ (finger_ratios jp).ring ∧ (finger_ratios jp).ring ≤ 1) ∧
    (0 ≤ (finger_ratios jp).pinky ∧ (finger_ratios jp).pinky ≤ 1) :=
  ⟨one_sub_clip01_mem _, one_sub_clip01_mem _, one_sub_clip01_mem _,
    one_sub_clip01_mem _, one_sub_clip01_mem _⟩
